import Mathlib

/-!
Verification development for the `module` package worker pool
(`WorkerModule` in the bowlutils repository).

The Go source is shallowly embedded: channels become bounded list
buffers with a `closed` flag, the task registry (a Go map guarded by a
mutex) becomes an association list with overwrite-on-insert semantics,
`time.Now()` readings become explicit integer parameters, and code that
can panic (close of a closed channel, send on a closed channel) returns
an explicit `Outcome.panicked` value.
-/

namespace WorkerPool

/-- TaskStatus mirrors the Go `TaskStatus` enumeration
(`TaskStatusPending` .. `TaskStatusCancelled`, part_008:66-72). -/
inductive TaskStatus where
  | pending
  | running
  | completed
  | failed
  | cancelled
deriving DecidableEq, Repr

/-- GoTask mirrors the data carried by the `Task` interface
(part_008:50-61) as realised by `SimpleTask` (part_008:356-423):
a name, an integer priority, a timeout duration (Go `time.Duration`,
an integer number of nanoseconds; zero means no timeout) and a retry
budget.  The `Execute` behaviour is supplied separately, as a stream of
per-invocation results, where `none` models a nil error. -/
structure GoTask where
  name : String := ""
  priority : Int := 0
  timeout : Int := 0
  retry : Int := 0
deriving DecidableEq, Repr

/-- TaskInfo mirrors the Go `TaskInfo` record (part_008:91-101).
Timestamps are integers; `error` is the last recorded execution error
(`nil` = `none`). -/
structure TaskInfo where
  id : String
  task : GoTask
  status : TaskStatus
  createdAt : Int := 0
  startedAt : Int := 0
  endedAt : Int := 0
  error : Option String := none
  retries : Int := 0
deriving DecidableEq, Repr

/-- Chan models a buffered Go channel: a FIFO buffer (head = next value
received), a capacity, and whether the channel has been closed. -/
structure Chan (α : Type) where
  buf : List α
  cap : Nat
  closed : Bool
deriving DecidableEq, Repr

/-- Outcome of running a piece of Go code that may panic. -/
inductive Outcome (α : Type) where
  | ok (val : α)
  | panicked (msg : String)
deriving DecidableEq, Repr

/-- SendRes is the result of a non-blocking send
(`select { case ch <- v: ... default: ... }`). -/
inductive SendRes (α : Type) where
  | sent (ch : Chan α)
  | full
  | panicked
deriving DecidableEq, Repr

/-- trySend models `select { case ch <- v: ...; default: ... }`.
Per the Go memory model: a send on a closed channel proceeds by
panicking (and in a `select` a ready case is preferred over `default`),
a send on a full buffered channel is not ready, so `default` fires,
otherwise the value is appended to the buffer. -/
def trySend {α : Type} (ch : Chan α) (v : α) : SendRes α :=
  if ch.closed then .panicked
  else if ch.buf.length < ch.cap then .sent { ch with buf := ch.buf ++ [v] }
  else .full

/-- mapLookup models reading from the Go map `wm.tasks`
(`taskInfo, exists := wm.tasks[taskID]`). -/
def mapLookup (m : List (String × TaskInfo)) (k : String) : Option TaskInfo :=
  (m.find? (fun p => p.1 == k)).map (fun p => p.2)

/-- mapInsert models the Go map assignment `wm.tasks[taskID] = taskInfo`:
an existing entry under the same key is silently overwritten. -/
def mapInsert (m : List (String × TaskInfo)) (k : String) (v : TaskInfo) :
    List (String × TaskInfo) :=
  (k, v) :: m.filter (fun p => !(p.1 == k))

/-- WorkerModule state (part_008:104-112): the two bounded queues, the
`quit` channel (we only track whether it has been closed), and the task
registry map. -/
structure WorkerModule where
  workerCount : Int
  submitQueue : Chan TaskInfo
  taskQueue : Chan TaskInfo
  quitClosed : Bool
  tasks : List (String × TaskInfo)
deriving DecidableEq, Repr

/-- NewWorkerModule (part_008:116-127): both queues have capacity 100. -/
def NewWorkerModule (workerCount : Int) : WorkerModule :=
  let wc := if workerCount ≤ 0 then 1 else workerCount
  { workerCount := wc
    submitQueue := { buf := [], cap := 100, closed := false }
    taskQueue := { buf := [], cap := 100, closed := false }
    quitClosed := false
    tasks := [] }

/-- generateTaskID (part_008:351-353):
`fmt.Sprintf("task_%d_%d", time.Now().UnixNano(), time.Now().Unix())`.
The two clock readings are passed in explicitly. -/
def generateTaskID (nanos secs : Int) : String :=
  "task_" ++ toString nanos ++ "_" ++ toString secs

/-- SubmitTask (part_008:130-151).  The record is created and stored in
the registry first (under the mutex), then a non-blocking send onto the
submission queue is attempted; the full case returns the error
`"task queue is full"` with an empty id, leaving the registry entry in
place.  Returns the updated module, the returned id and the returned
error. -/
def SubmitTask (wm : WorkerModule) (task : GoTask) (nanos secs now : Int) :
    Outcome (WorkerModule × String × Option String) :=
  let taskID := generateTaskID nanos secs
  let taskInfo : TaskInfo :=
    { id := taskID, task := task, status := .pending, createdAt := now, retries := 0 }
  let wm' := { wm with tasks := mapInsert wm.tasks taskID taskInfo }
  match trySend wm'.submitQueue taskInfo with
  | .sent q => .ok ({ wm' with submitQueue := q }, taskID, none)
  | .full => .ok (wm', "", some "task queue is full")
  | .panicked => .panicked "send on closed channel"

/-- CancelTask (part_008:169-179): under the mutex, returns false if the
record is missing or not pending; otherwise sets the status to cancelled
and stamps `EndedAt`. -/
def CancelTask (wm : WorkerModule) (taskID : String) (now : Int) :
    WorkerModule × Bool :=
  match mapLookup wm.tasks taskID with
  | none => (wm, false)
  | some taskInfo =>
    if taskInfo.status ≠ .pending then (wm, false)
    else
      let cancelled := { taskInfo with status := .cancelled, endedAt := now }
      ({ wm with tasks := mapInsert wm.tasks taskID cancelled }, true)

/-- Stop (part_008:198-206): closes `quit`, then `submitQueue`, then
`taskQueue`, then waits.  Closing an already-closed channel panics. -/
def Stop (wm : WorkerModule) : Outcome WorkerModule :=
  if wm.quitClosed then .panicked "close of closed channel"
  else if wm.submitQueue.closed then .panicked "close of closed channel"
  else if wm.taskQueue.closed then .panicked "close of closed channel"
  else .ok { wm with
    quitClosed := true
    submitQueue := { wm.submitQueue with closed := true }
    taskQueue := { wm.taskQueue with closed := true } }

/-- workerExecutes models the worker's dequeue guard (part_008:221-224):
a dequeued record is executed unless its status reads `Cancelled`.
This read happens without holding `tasksMutex`. -/
def workerExecutes (taskInfo : TaskInfo) : Bool :=
  !(taskInfo.status == .cancelled)

/-- ExecCtx models the context a task's `Execute` runs under: the pool's
ambient context, or a context carrying a deadline. -/
inductive ExecCtx where
  | ambient
  | withTimeout (d : Int)
deriving DecidableEq, Repr

/-- taskCtx models part_008:309-315: a timeout context is derived only
when `Timeout() > 0`; otherwise the ambient context is used as is. -/
def taskCtx (timeout : Int) : ExecCtx :=
  if timeout > 0 then .withTimeout timeout else .ambient

/-- execStart models the first locked region of `executeTask`
(part_008:304-307): status becomes Running, `StartedAt` is stamped,
regardless of the record's current status. -/
def execStart (taskInfo : TaskInfo) (now : Int) : TaskInfo :=
  { taskInfo with status := .running, startedAt := now }

/-- execFinish models the second locked region of `executeTask`
(part_008:320-347): stamp `EndedAt`; on an error, either retry
(increment `Retries`, reset to Pending, non-blocking resubmit onto the
submission queue — a full queue marks the record Failed instead) or mark
Failed with the error; on success mark Completed.  `execErr` is the
value returned by `Execute`. -/
def execFinish (taskInfo : TaskInfo) (execErr : Option String)
    (submitQueue : Chan TaskInfo) (now : Int) :
    Outcome (TaskInfo × Chan TaskInfo) :=
  let ti := { taskInfo with endedAt := now }
  match execErr with
  | some _ =>
    if ti.retries < ti.task.retry then
      let ti' := { ti with retries := ti.retries + 1, status := .pending }
      match trySend submitQueue ti' with
      | .sent q => .ok (ti', q)
      | .full => .ok ({ ti' with status := .failed, error := execErr }, submitQueue)
      | .panicked => .panicked "send on closed channel"
    else
      .ok ({ ti with status := .failed, error := execErr }, submitQueue)
  | none => .ok ({ ti with status := .completed }, submitQueue)

/-- executeTask (part_008:303-348): start under the lock, derive the
execution context from the task's timeout, run `Execute` (its result is
the `execErr` argument), finish under the lock.  Also returns the
context `Execute` ran under. -/
def executeTask (taskInfo : TaskInfo) (execErr : Option String)
    (submitQueue : Chan TaskInfo) (startNow endNow : Int) :
    Outcome (TaskInfo × Chan TaskInfo × ExecCtx) :=
  let ti := execStart taskInfo startNow
  let ctx := taskCtx ti.task.timeout
  match execFinish ti execErr submitQueue endNow with
  | .ok (ti', q) => .ok (ti', q, ctx)
  | .panicked msg => .panicked msg

/-- prio is the sort key used by the dispatcher:
`tasks[i].Task.Priority()`. -/
def prio (taskInfo : TaskInfo) : Int :=
  taskInfo.task.priority

/-- maybeSwap models one iteration of the inner sorting loop
(part_008:286-288): `if tasks[i].Task.Priority() < tasks[j].Task.Priority()
{ tasks[i], tasks[j] = tasks[j], tasks[i] }`.  The simultaneous slice
assignment becomes two `List.set` writes of the previously read values. -/
def maybeSwap (l : List TaskInfo) (i j : Nat) : List TaskInfo :=
  match l.get? i, l.get? j with
  | some a, some b => if prio a < prio b then (l.set i b).set j a else l
  | _, _ => l

/-- innerAux runs the inner loop `for j := i + 1; j < len(tasks); j++`
(part_008:285-289); `steps` is the number of remaining iterations
(`len(tasks) - j`; swaps preserve the length, so the count is fixed up
front). -/
def innerAux (l : List TaskInfo) (i j : Nat) : Nat → List TaskInfo
  | 0 => l
  | steps + 1 => innerAux (maybeSwap l i j) i (j + 1) steps

/-- innerLoop is one full pass of the inner loop for a given `i`. -/
def innerLoop (l : List TaskInfo) (i : Nat) : List TaskInfo :=
  innerAux l i (i + 1) (l.length - (i + 1))

/-- outerAux runs the outer loop `for i := 0; i < len(tasks)-1; i++`
(part_008:284-290); `steps` is the number of remaining iterations. -/
def outerAux (l : List TaskInfo) (i : Nat) : Nat → List TaskInfo
  | 0 => l
  | steps + 1 => outerAux (innerLoop l i) (i + 1) steps

/-- prioritySort is the full in-place exchange sort of
`flushPendingTasks` (part_008:283-290). -/
def prioritySort (l : List TaskInfo) : List TaskInfo :=
  outerAux l 0 (l.length - 1)

/-- sendAll models the forwarding loop of `flushPendingTasks`
(part_008:293-299): each record of the sorted batch is offered to the
worker queue with a non-blocking send; on a full queue the record is
logged and dropped (second component collects the dropped records, in
order). -/
def sendAll (q : Chan TaskInfo) : List TaskInfo →
    Outcome (Chan TaskInfo × List TaskInfo)
  | [] => .ok (q, [])
  | t :: rest =>
    match trySend q t with
    | .sent q' => sendAll q' rest
    | .full =>
      match sendAll q rest with
      | .ok (qf, dropped) => .ok (qf, t :: dropped)
      | .panicked msg => .panicked msg
    | .panicked => .panicked "send on closed channel"

/-- flushPendingTasks (part_008:278-300): an empty batch is a no-op;
otherwise the batch is exchange-sorted by priority descending and each
record is forwarded to the worker queue non-blockingly, dropping records
that do not fit. -/
def flushPendingTasks (q : Chan TaskInfo) (tasks : List TaskInfo) :
    Outcome (Chan TaskInfo × List TaskInfo) :=
  if tasks.isEmpty then .ok (q, [])
  else sendAll q (prioritySort tasks)

/-- selPass is a proof-side functional characterisation of one inner
pass: `selPass a rest` returns the maximum-priority element among
`a :: rest` (the first occurrence under the strict-compare swap rule)
and the remaining elements as the inner loop leaves them.  It is related
to `innerLoop` by `innerAux_zip` below; it is not itself a translation
of source code. -/
def selPass (a : TaskInfo) : List TaskInfo → TaskInfo × List TaskInfo
  | [] => (a, [])
  | b :: t =>
    if prio a < prio b then
      let p := selPass b t
      (p.1, a :: p.2)
    else
      let p := selPass a t
      (p.1, b :: p.2)

/-- selSortF is fuel-indexed selection sort built from `selPass`; with
fuel at least the list length it computes the same list as
`prioritySort` (proved below). -/
def selSortF : Nat → List TaskInfo → List TaskInfo
  | 0, l => l
  | _ + 1, [] => []
  | fuel + 1, a :: t =>
    let p := selPass a t
    p.1 :: selSortF fuel p.2

/-- selSort is `selSortF` with adequate fuel. -/
def selSort (l : List TaskInfo) : List TaskInfo :=
  selSortF l.length l

/-- driveRetries models the life of a single record bouncing between the
worker pool and the scheduler (part_008:213-236, 240-274): the worker
dequeues the record, skips it if cancelled, otherwise runs
`executeTask`; when the failure path resubmitted the record (status
reset to Pending), the scheduler drains the submission queue and hands
the record to a worker again, so the next round starts from the same
queue state.  `execs n` is the result of the n-th `Execute` invocation;
the third component counts `Execute` invocations. -/
def driveRetries (execs : Nat → Option String) (sq : Chan TaskInfo) :
    Nat → TaskInfo → Nat → Outcome (TaskInfo × Nat)
  | 0, taskInfo, count => .ok (taskInfo, count)
  | fuel + 1, taskInfo, count =>
    if workerExecutes taskInfo then
      match executeTask taskInfo (execs count) sq 0 0 with
      | .panicked msg => .panicked msg
      | .ok (ti', _, _) =>
        if ti'.status = .pending then driveRetries execs sq fuel ti' (count + 1)
        else .ok (ti', count + 1)
    else .ok (taskInfo, count)

/-- schedulerTick models one `ticker.C` arm of the scheduler loop
(part_008:260-265): the pending batch is flushed and then cleared
(`pendingTasks = pendingTasks[:0]`).  Returns the worker queue, the
batch retained for the next tick (always empty), and the records the
flush dropped. -/
def schedulerTick (q : Chan TaskInfo) (pendingTasks : List TaskInfo) :
    Outcome (Chan TaskInfo × List TaskInfo × List TaskInfo) :=
  match flushPendingTasks q pendingTasks with
  | .ok (q', dropped) => .ok (q', [], dropped)
  | .panicked msg => .panicked msg

/-- workerStep is the worker's handling of one dequeued record with no
other goroutine touching the record in between (part_008:221-227): skip
it if the cancellation check fires, otherwise run `executeTask`. -/
def workerStep (taskInfo : TaskInfo) (execErr : Option String)
    (submitQueue : Chan TaskInfo) (startNow endNow : Int) :
    Outcome (TaskInfo × Chan TaskInfo) :=
  if workerExecutes taskInfo then
    match executeTask taskInfo execErr submitQueue startNow endNow with
    | .ok (ti', q, _) => .ok (ti', q)
    | .panicked msg => .panicked msg
  else .ok (taskInfo, submitQueue)

/-- legalStep is the lifecycle state machine of spec §3: Pending may
start running or be cancelled, Running may complete, fail, or be reset
to Pending by the retry manager; Completed, Failed and Cancelled are
terminal. -/
def legalStep : TaskStatus → TaskStatus → Bool
  | .pending, .running => true
  | .pending, .cancelled => true
  | .running, .completed => true
  | .running, .failed => true
  | .running, .pending => true
  | _, _ => false

/-! Concrete instances used to evaluate the definitions on explicit
inputs. -/

/-- mkRec builds a pending record with a given id and priority. -/
def mkRec (nm : String) (p : Int) : TaskInfo :=
  { id := nm, task := { name := nm, priority := p }, status := .pending }

/-- emptyChan100 is a fresh queue as allocated by `NewWorkerModule`. -/
def emptyChan100 : Chan TaskInfo :=
  { buf := [], cap := 100, closed := false }

/-- fullChan100 is a queue whose buffer holds 100 records: at capacity. -/
def fullChan100 : Chan TaskInfo :=
  { buf := List.replicate 100 (mkRec "occupant" 0), cap := 100, closed := false }

/-- wmFullSubmit is a worker module whose submission queue is full. -/
def wmFullSubmit : WorkerModule :=
  { (NewWorkerModule 4) with submitQueue := fullChan100 }

/-- stoppedWM is the module state after one successful `Stop`. -/
def stoppedWM : WorkerModule :=
  match Stop (NewWorkerModule 4) with
  | .ok wm => wm
  | .panicked _ => NewWorkerModule 4

/-- c4taskA and c4taskB are two distinct tasks submitted while the clock
reads the same nanosecond (5) and second (0). -/
def c4taskA : GoTask := { name := "a" }

/-- c4taskB is the second, distinct task of the collision scenario. -/
def c4taskB : GoTask := { name := "b" }

/-- c4wm1 is the module state after submitting `c4taskA`. -/
def c4wm1 : WorkerModule :=
  match SubmitTask (NewWorkerModule 4) c4taskA 5 0 0 with
  | .ok (wm, _, _) => wm
  | .panicked _ => NewWorkerModule 4

/-- c4wm2 is the module state after additionally submitting `c4taskB`
with identical clock readings. -/
def c4wm2 : WorkerModule :=
  match SubmitTask c4wm1 c4taskB 5 0 1 with
  | .ok (wm, _, _) => wm
  | .panicked _ => NewWorkerModule 4

/-- c5recA, c5recB, c5recC: A and B share priority 2 with A submitted
first; C has priority 3 and arrives last in the flush window. -/
def c5recA : TaskInfo := mkRec "A" 2

/-- c5recB is the second record of priority 2. -/
def c5recB : TaskInfo := mkRec "B" 2

/-- c5recC is the later, higher-priority record. -/
def c5recC : TaskInfo := mkRec "C" 3

/-- c6batch is the spec §8 example batch with priorities [1,5,3,2,4]. -/
def c6batch : List TaskInfo :=
  [mkRec "t1" 1, mkRec "t2" 5, mkRec "t3" 3, mkRec "t4" 2, mkRec "t5" 4]

/-- c7rec is a pending record whose task declares a retry budget of 2. -/
def c7rec : TaskInfo :=
  { id := "x", task := { name := "x", retry := 2 }, status := .pending }

/-- c7execs is an always-failing execution stream: invocation n returns
the error string of n. -/
def c7execs : Nat → Option String :=
  fun n => some (toString n)

/-- c2rec is a pending record caught in a flush against a full queue. -/
def c2rec : TaskInfo := mkRec "r" 7

/-- c8wm is a module whose registry holds one pending record "y". -/
def c8wm : WorkerModule :=
  { (NewWorkerModule 4) with tasks := [("y", mkRec "y" 1)] }

/-- c10rec is a pending record whose task declares a negative timeout. -/
def c10rec : TaskInfo :=
  { id := "n", task := { name := "n", timeout := -3 }, status := .pending }

/-- c9wm is a module whose registry holds one pending record "x" that a
worker has just dequeued. -/
def c9wm : WorkerModule :=
  { (NewWorkerModule 4) with tasks := [("x", mkRec "x" 0)] }

/-- c9cancelled is the record "x" as left by `CancelTask` running
between the worker's cancellation check and `executeTask`. -/
def c9cancelled : TaskInfo :=
  match mapLookup (CancelTask c9wm "x" 5).1.tasks "x" with
  | some ti => ti
  | none => mkRec "x" 0

/-! Helper lemmas about list indexing at an append boundary. -/

/-- Reading the element right after a prefix `P`. -/
theorem getAppendMid {α : Type} (P R : List α) (x : α) :
    (P ++ x :: R).get? P.length = some x := by
  induction P with
  | nil => rfl
  | cons p P ih => exact ih

/-- Writing the element right after a prefix `P`. -/
theorem setAppendMid {α : Type} (P R : List α) (x y : α) :
    (P ++ x :: R).set P.length y = P ++ y :: R := by
  induction P with
  | nil => rfl
  | cons p P ih => exact congrArg (List.cons p) ih

/-! Properties of the selection pass and of selection sort. -/

/-- selPass preserves the number of remaining elements. -/
theorem selPass_len (t : List TaskInfo) : ∀ a, (selPass a t).2.length = t.length := by
  induction t with
  | nil => intro a; rfl
  | cons b t ih =>
    intro a
    by_cases h : prio a < prio b <;> simp [selPass, h, ih]

/-- selPass permutes its input: the selected maximum together with the
remainder is a permutation of the original elements. -/
theorem selPass_perm (t : List TaskInfo) :
    ∀ a, ((selPass a t).1 :: (selPass a t).2).Perm (a :: t) := by
  induction t with
  | nil => intro a; rfl
  | cons b t ih =>
    intro a
    by_cases h : prio a < prio b
    · simp only [selPass, if_pos h]
      exact (List.Perm.swap a _ _).trans ((ih b).cons a)
    · simp only [selPass, if_neg h]
      exact ((List.Perm.swap b _ _).trans ((ih a).cons b)).trans (List.Perm.swap a b t)

/-- selPass selects an element whose priority dominates the seed and
every remaining element. -/
theorem selPass_max (t : List TaskInfo) :
    ∀ a, prio a ≤ prio (selPass a t).1 ∧
      ∀ x ∈ (selPass a t).2, prio x ≤ prio (selPass a t).1 := by
  induction t with
  | nil => intro a; exact ⟨le_refl _, by simp [selPass]⟩
  | cons b t ih =>
    intro a
    by_cases h : prio a < prio b
    · simp only [selPass, if_pos h]
      obtain ⟨hb, hrest⟩ := ih b
      refine ⟨le_of_lt (lt_of_lt_of_le h hb), ?_⟩
      intro x hx
      rcases List.mem_cons.mp hx with rfl | hx
      · exact le_of_lt (lt_of_lt_of_le h hb)
      · exact hrest x hx
    · simp only [selPass, if_neg h]
      obtain ⟨ha, hrest⟩ := ih a
      refine ⟨ha, ?_⟩
      intro x hx
      rcases List.mem_cons.mp hx with rfl | hx
      · exact le_trans (le_of_not_lt h) ha
      · exact hrest x hx

/-- selSort on the empty list. -/
theorem selSort_nil : selSort [] = [] := rfl

/-- selSort unfolds one selection pass at a time. -/
theorem selSort_cons (a : TaskInfo) (t : List TaskInfo) :
    selSort (a :: t) = (selPass a t).1 :: selSort (selPass a t).2 := by
  show selSortF (t.length + 1) (a :: t) = _
  rw [selSortF]
  rw [selSort, selPass_len]

/-- selSort permutes its input. -/
theorem selSort_perm : ∀ l : List TaskInfo, (selSort l).Perm l
  | [] => by simp [selSort_nil]
  | a :: t => by
    rw [selSort_cons]
    exact ((selSort_perm (selPass a t).2).cons _).trans (selPass_perm t a)
termination_by l => l.length
decreasing_by simp [selPass_len]

/-- selSort output is sorted by priority, descending. -/
theorem selSort_sorted : ∀ l : List TaskInfo,
    (selSort l).Pairwise (fun x y => prio y ≤ prio x)
  | [] => by simp [selSort_nil]
  | a :: t => by
    rw [selSort_cons]
    refine List.Pairwise.cons ?_ (selSort_sorted (selPass a t).2)
    intro y hy
    exact (selPass_max t a).2 y ((selSort_perm (selPass a t).2).mem_iff.mp hy)
termination_by l => l.length
decreasing_by all_goals simp [selPass_len]

/-! Equivalence of the imperative exchange sort with selection sort. -/

/-- innerAux, started at position `j` past a fixed prefix `P`, an
accumulator element `a` at position `i = P.length` and already-finalised
middle `M`, performs exactly the selection pass `selPass a S` on the
untouched suffix `S`. -/
theorem innerAux_zip : ∀ (S M P : List TaskInfo) (a : TaskInfo),
    innerAux (P ++ a :: (M ++ S)) P.length (P.length + 1 + M.length) S.length
      = P ++ (selPass a S).1 :: (M ++ (selPass a S).2) := by
  intro S
  induction S with
  | nil => intro M P a; simp [innerAux, selPass]
  | cons b S ih =>
    intro M P a
    have hget1 : (P ++ a :: (M ++ b :: S)).get? P.length = some a := getAppendMid P _ a
    have hassoc : P ++ a :: (M ++ b :: S) = (P ++ a :: M) ++ b :: S := by simp
    have hlen : P.length + 1 + M.length = (P ++ a :: M).length := by
      simp only [List.length_append, List.length_cons]
      omega
    have hget2 : (P ++ a :: (M ++ b :: S)).get? (P.length + 1 + M.length) = some b := by
      rw [hassoc, hlen]
      exact getAppendMid _ _ b
    show innerAux (P ++ a :: (M ++ b :: S)) P.length (P.length + 1 + M.length)
        (S.length + 1) = _
    rw [innerAux, maybeSwap, hget1, hget2]
    dsimp only
    by_cases h : prio a < prio b
    · rw [if_pos h]
      have hset1 : (P ++ a :: (M ++ b :: S)).set P.length b = P ++ b :: (M ++ b :: S) :=
        setAppendMid P _ a b
      have hlen2 : P.length + 1 + M.length = (P ++ b :: M).length := by
        simp only [List.length_append, List.length_cons]
        omega
      have hset2 : (P ++ b :: (M ++ b :: S)).set (P.length + 1 + M.length) a
          = P ++ b :: ((M ++ [a]) ++ S) := by
        have : P ++ b :: (M ++ b :: S) = (P ++ b :: M) ++ b :: S := by simp
        rw [this, hlen2, setAppendMid]
        simp
      rw [hset1, hset2]
      have hstep : P.length + 1 + M.length + 1 = P.length + 1 + (M ++ [a]).length := by
        simp only [List.length_append, List.length_singleton]
        omega
      rw [hstep, ih (M ++ [a]) P b]
      simp [selPass, if_pos h]
    · rw [if_neg h]
      have hmid : P ++ a :: (M ++ b :: S) = P ++ a :: ((M ++ [b]) ++ S) := by simp
      have hstep : P.length + 1 + M.length + 1 = P.length + 1 + (M ++ [b]).length := by
        simp only [List.length_append, List.length_singleton]
        omega
      rw [hmid, hstep, ih (M ++ [b]) P a]
      simp [selPass, if_neg h]

/-- innerLoop on a list with prefix `P` and pivot position `P.length`
computes one selection pass over the suffix. -/
theorem innerLoop_zip (P S : List TaskInfo) (a : TaskInfo) :
    innerLoop (P ++ a :: S) P.length = P ++ (selPass a S).1 :: (selPass a S).2 := by
  have hlen : (P ++ a :: S).length - (P.length + 1) = S.length := by
    simp only [List.length_append, List.length_cons]
    omega
  unfold innerLoop
  rw [hlen]
  have h1 := innerAux_zip S [] P a
  simpa using h1

/-- outerAux is the identity once fewer than two positions remain. -/
theorem outerAux_stall : ∀ (steps : Nat) (l : List TaskInfo) (i : Nat),
    l.length ≤ i + 1 → outerAux l i steps = l := by
  intro steps
  induction steps with
  | zero => intro l i _; rfl
  | succ steps ih =>
    intro l i h
    have hinner : innerLoop l i = l := by
      have : l.length - (i + 1) = 0 := by omega
      simp [innerLoop, this, innerAux]
    rw [outerAux, hinner]
    exact ih l (i + 1) (by omega)

/-- outerAux, started past a fixed prefix `P` with enough remaining
iterations, selection-sorts the suffix. -/
theorem outerAux_zip : ∀ (steps : Nat) (P R : List TaskInfo),
    R.length ≤ steps + 1 → outerAux (P ++ R) P.length steps = P ++ selSort R := by
  intro steps
  induction steps with
  | zero =>
    intro P R h
    cases R with
    | nil => simp [outerAux, selSort_nil]
    | cons a t =>
      cases t with
      | nil => rfl
      | cons b t' => simp at h
  | succ steps ih =>
    intro P R h
    match R with
    | [] =>
      rw [outerAux]
      have hinner : innerLoop (P ++ []) P.length = P ++ [] := by
        have : (P ++ []).length - (P.length + 1) = 0 := by simp
        simp [innerLoop, this, innerAux]
      rw [hinner]
      rw [outerAux_stall steps (P ++ []) (P.length + 1) (by simp only [List.append_nil]; omega)]
      simp [selSort_nil]
    | a :: t =>
      rw [outerAux, innerLoop_zip P t a]
      have hP : P ++ (selPass a t).1 :: (selPass a t).2
          = (P ++ [(selPass a t).1]) ++ (selPass a t).2 := by simp
      have hL : P.length + 1 = (P ++ [(selPass a t).1]).length := by simp
      rw [hP, hL, ih (P ++ [(selPass a t).1]) (selPass a t).2
        (by rw [selPass_len]; simpa using Nat.le_of_succ_le_succ h)]
      rw [selSort_cons]
      simp

/-- prioritySort computes selection sort. -/
theorem prioritySort_eq_selSort (l : List TaskInfo) : prioritySort l = selSort l := by
  have := outerAux_zip (l.length - 1) [] l (by omega)
  simpa [prioritySort] using this

/-- prioritySort permutes the batch. -/
theorem prioritySort_perm (l : List TaskInfo) : (prioritySort l).Perm l := by
  rw [prioritySort_eq_selSort]
  exact selSort_perm l

/-- prioritySort output is ordered by priority, descending. -/
theorem prioritySort_sorted (l : List TaskInfo) :
    (prioritySort l).Pairwise (fun x y => prio y ≤ prio x) := by
  rw [prioritySort_eq_selSort]
  exact selSort_sorted l

/-! Behaviour of the forwarding loop and the registry map. -/

/-- sendAll when the queue has room for the whole batch: everything is
forwarded in order, nothing is dropped. -/
theorem sendAll_fits : ∀ (ts : List TaskInfo) (q : Chan TaskInfo),
    q.closed = false → q.buf.length + ts.length ≤ q.cap →
    sendAll q ts = .ok ({ q with buf := q.buf ++ ts }, []) := by
  intro ts
  induction ts with
  | nil => intro q hc _; simp [sendAll]
  | cons t ts ih =>
    intro q hc hlen
    have hlt : q.buf.length < q.cap := by
      simp only [List.length_cons] at hlen
      omega
    have hsend : trySend q t = .sent { q with buf := q.buf ++ [t] } := by
      simp [trySend, hc, hlt]
    rw [sendAll, hsend]
    have hc' : ({ q with buf := q.buf ++ [t] } : Chan TaskInfo).closed = false := hc
    have hlen' : ({ q with buf := q.buf ++ [t] } : Chan TaskInfo).buf.length + ts.length
        ≤ ({ q with buf := q.buf ++ [t] } : Chan TaskInfo).cap := by
      simp only [List.length_append, List.length_cons, List.length_nil] at hlen ⊢
      omega
    dsimp only
    rw [ih _ hc' hlen']
    simp

/-- sendAll when the queue is already at capacity: the queue is
unchanged and the whole batch is dropped. -/
theorem sendAll_full : ∀ (ts : List TaskInfo) (q : Chan TaskInfo),
    q.closed = false → q.cap ≤ q.buf.length →
    sendAll q ts = .ok (q, ts) := by
  intro ts
  induction ts with
  | nil => intro q hc _; simp [sendAll]
  | cons t ts ih =>
    intro q hc hfull
    have hsend : trySend q t = .full := by
      simp [trySend, hc]
      omega
    rw [sendAll, hsend, ih q hc hfull]

/-- Looking up a freshly inserted key returns the new record: an older
record under the same key is no longer reachable. -/
theorem mapLookup_insert (m : List (String × TaskInfo)) (k : String) (v : TaskInfo) :
    mapLookup (mapInsert m k v) k = some v := by
  simp [mapLookup, mapInsert]

/-! Behaviour of the retry loop. -/

/-- executeTask on a failing execution with the retry budget exhausted:
the record settles in Failed with the error retained. -/
theorem executeTask_fail_final (ti : TaskInfo) (e : String) (sq : Chan TaskInfo)
    (h : ¬ (ti.retries < ti.task.retry)) :
    executeTask ti (some e) sq 0 0
      = .ok ({ ti with status := .failed, startedAt := 0, endedAt := 0, error := some e },
        sq, taskCtx ti.task.timeout) := by
  simp [executeTask, execStart, execFinish, h]

/-- executeTask on a failing execution with budget remaining and a
non-full open submission queue: the retry counter is incremented, the
status is reset to Pending, and the record is resubmitted. -/
theorem executeTask_fail_retry (ti : TaskInfo) (e : String) (sq : Chan TaskInfo)
    (h : ti.retries < ti.task.retry) (hc : sq.closed = false)
    (hroom : sq.buf.length < sq.cap) :
    executeTask ti (some e) sq 0 0
      = .ok ({ ti with status := .pending, startedAt := 0, endedAt := 0, retries := ti.retries + 1 },
        { sq with buf := sq.buf ++ [{ ti with status := .pending, startedAt := 0, endedAt := 0, retries := ti.retries + 1 }] },
        taskCtx ti.task.timeout) := by
  simp [executeTask, execStart, execFinish, h, trySend, hc, hroom]

/-- driveRetries on a pending record with an always-failing task and a
never-full submission queue: with `n` retries left in the budget, the
task is executed exactly `n + 1` more times, after which the record is
Failed with the last execution error retained, and the retry counter has
reached the budget. -/
theorem driveRetries_run : ∀ (n fuel : Nat) (ti : TaskInfo) (c : Nat)
    (execs : Nat → Option String) (sq : Chan TaskInfo),
    sq.closed = false → sq.buf.length < sq.cap →
    (∀ k, (execs k).isSome) →
    ti.status = .pending → ti.retries ≤ ti.task.retry →
    (ti.task.retry - ti.retries).toNat = n →
    n + 1 ≤ fuel →
    ∃ ti', driveRetries execs sq fuel ti c = .ok (ti', c + n + 1) ∧
      ti'.status = .failed ∧ ti'.error = execs (c + n) ∧
      ti'.retries = ti.task.retry ∧ ti'.task = ti.task ∧ ti'.id = ti.id := by
  intro n
  induction n with
  | zero =>
    intro fuel ti c execs sq hc hroom hE hp hle h0 hf
    obtain ⟨e, he⟩ := Option.isSome_iff_exists.mp (hE c)
    match fuel, hf with
    | fuel + 1, _ =>
      have hretry : ¬ (ti.retries < ti.task.retry) := by omega
      have hwe : workerExecutes ti = true := by simp [workerExecutes, hp]
      refine ⟨{ ti with status := .failed, startedAt := 0, endedAt := 0, error := some e }, ?_, rfl, ?_, ?_, rfl, rfl⟩
      · rw [driveRetries, if_pos hwe, he, executeTask_fail_final ti e sq hretry]
        simp
      · show some e = execs (c + 0)
        rw [Nat.add_zero, he]
      · show ti.retries = ti.task.retry
        omega
  | succ n ih =>
    intro fuel ti c execs sq hc hroom hE hp hle h1 hf
    obtain ⟨e, he⟩ := Option.isSome_iff_exists.mp (hE c)
    match fuel, hf with
    | fuel + 1, _ =>
      have hretry : ti.retries < ti.task.retry := by omega
      have hwe : workerExecutes ti = true := by simp [workerExecutes, hp]
      obtain ⟨ti', hrun, hst, herr, hretr, htask, hid⟩ :=
        ih fuel ({ ti with status := .pending, startedAt := 0, endedAt := 0, retries := ti.retries + 1 }) (c + 1) execs sq hc hroom hE rfl
          (by show ti.retries + 1 ≤ ti.task.retry; omega)
          (by show (ti.task.retry - (ti.retries + 1)).toNat = n; omega)
          (by omega)
      refine ⟨ti', ?_, hst, ?_, hretr, htask, hid⟩
      · rw [driveRetries, if_pos hwe, he, executeTask_fail_retry ti e sq hretry hc hroom]
        dsimp only
        have hcount : c + 1 + n + 1 = c + (n + 1) + 1 := by omega
        rw [if_pos rfl, hrun, hcount]
      · rw [herr]
        have hcount : c + 1 + n = c + (n + 1) := by omega
        rw [hcount]

/-- flushPendingTasks when the dispatch queue has room for the whole
batch: the exchange-sorted batch is appended to the queue in full. -/
theorem flush_fits (q : Chan TaskInfo) (batch : List TaskInfo)
    (hc : q.closed = false) (hroom : q.buf.length + batch.length ≤ q.cap) :
    flushPendingTasks q batch = .ok ({ q with buf := q.buf ++ prioritySort batch }, []) := by
  unfold flushPendingTasks
  by_cases hb : batch.isEmpty
  · have hbnil : batch = [] := by
      cases batch with
      | nil => rfl
      | cons a t => simp at hb
    subst hbnil
    simp [prioritySort, outerAux]
  · rw [if_neg hb]
    have hlen : q.buf.length + (prioritySort batch).length ≤ q.cap := by
      rw [(prioritySort_perm batch).length_eq]
      exact hroom
    exact sendAll_fits _ q hc hlen

/-- executeTask never panics while the submission queue is open, and the
context it runs under is determined by the task's timeout; the resulting
status is Pending (retry resubmitted), Completed, or Failed. -/
theorem executeTask_ok (ti : TaskInfo) (err : Option String) (sq : Chan TaskInfo)
    (t1 t2 : Int) (hc : sq.closed = false) :
    ∃ tif q, executeTask ti err sq t1 t2 = .ok (tif, q, taskCtx ti.task.timeout)
      ∧ (tif.status = .pending ∨ tif.status = .completed ∨ tif.status = .failed) := by
  cases err with
  | none =>
    refine ⟨{ ti with status := .completed, startedAt := t1, endedAt := t2 }, sq, ?_, Or.inr (Or.inl rfl)⟩
    simp [executeTask, execStart, execFinish]
  | some e =>
    by_cases hr : ti.retries < ti.task.retry
    · by_cases hroom : sq.buf.length < sq.cap
      · refine ⟨{ ti with status := .pending, startedAt := t1, endedAt := t2, retries := ti.retries + 1 }, { sq with buf := sq.buf ++ [{ ti with status := .pending, startedAt := t1, endedAt := t2, retries := ti.retries + 1 }] }, ?_, Or.inl rfl⟩
        simp [executeTask, execStart, execFinish, hr, trySend, hc, hroom]
      · refine ⟨{ ti with status := .failed, startedAt := t1, endedAt := t2, retries := ti.retries + 1, error := some e }, sq, ?_, Or.inr (Or.inr rfl)⟩
        simp [executeTask, execStart, execFinish, hr, trySend, hc, hroom]
    · refine ⟨{ ti with status := .failed, startedAt := t1, endedAt := t2, error := some e }, sq, ?_, Or.inr (Or.inr rfl)⟩
      simp [executeTask, execStart, execFinish, hr]

/-! Claim theorems. -/

/-- Claim C1, counterexample: with the submission queue full (100
occupants, capacity 100), `SubmitTask` returns the QueueFull error
synchronously, but the registry record it created for the call is left
in `Pending` status — it is not marked `Failed`, so the caller-visible
error and the registry state disagree, contrary to the claim. -/
theorem c1_counterexample :
    SubmitTask wmFullSubmit { name := "t" } 5 0 0
      = .ok ({ wmFullSubmit with tasks := [("task_5_0", { id := "task_5_0", task := { name := "t" }, status := .pending })] }, "", some "task queue is full")
    ∧ (mapLookup [("task_5_0", ({ id := "task_5_0", task := { name := "t" }, status := .pending } : TaskInfo))] "task_5_0").map TaskInfo.status
      = some TaskStatus.pending := by
  exact ⟨by decide, by decide⟩

/-- Claim C1 (amended): when the submission queue is full and not
closed, `SubmitTask` returns the QueueFull error (`"task queue is
full"`) synchronously without blocking or panicking, and the record
created in the registry for that call remains in `Pending` status — it
is never marked `Failed`, so the registry does not agree with the
returned error. -/
theorem c1_queue_full_submit : ∀ (wm : WorkerModule) (task : GoTask) (nanos secs now : Int),
    wm.submitQueue.closed = false →
    wm.submitQueue.cap ≤ wm.submitQueue.buf.length →
    ∃ rec, SubmitTask wm task nanos secs now
        = .ok ({ wm with tasks := mapInsert wm.tasks (generateTaskID nanos secs) rec }, "", some "task queue is full")
      ∧ mapLookup (mapInsert wm.tasks (generateTaskID nanos secs) rec) (generateTaskID nanos secs) = some rec
      ∧ rec.status = .pending := by
  intro wm task nanos secs now hc hfull
  have hnl : ¬ (wm.submitQueue.buf.length < wm.submitQueue.cap) := by omega
  refine ⟨{ id := generateTaskID nanos secs, task := task, status := .pending, createdAt := now, retries := 0 }, ?_, mapLookup_insert _ _ _, rfl⟩
  simp [SubmitTask, trySend, hc, hnl]

/-- Claim C1, witness: the amended statement evaluated on a concrete
full-queue module. -/
theorem c1_witness :
    ∃ rec, SubmitTask wmFullSubmit { name := "t" } 5 0 0
        = .ok ({ wmFullSubmit with tasks := mapInsert wmFullSubmit.tasks (generateTaskID 5 0) rec }, "", some "task queue is full")
      ∧ mapLookup (mapInsert wmFullSubmit.tasks (generateTaskID 5 0) rec) (generateTaskID 5 0) = some rec
      ∧ rec.status = .pending :=
  c1_queue_full_submit wmFullSubmit { name := "t" } 5 0 0 (by decide) (by decide)

/-- Claim C2, counterexample: a pending record flushed against a full
dispatch queue is dropped: after the scheduler tick it is not in the
dispatch queue, the retained batch is empty (the scheduler clears
`pendingTasks` after the flush, so nothing is requeued for the next
tick), and its registry state is untouched — still `Pending`, never
`Failed`.  The record is lost from the dispatch flow, contrary to the
claim. -/
theorem c2_counterexample :
    schedulerTick fullChan100 [c2rec] = .ok (fullChan100, [], [c2rec])
    ∧ c2rec ∉ fullChan100.buf
    ∧ c2rec.status = .pending := by
  exact ⟨by decide, by decide, by decide⟩

/-- Claim C2 (amended): when the dispatch queue is at capacity (and not
closed), the whole sorted batch of a flush is dropped with a warning
log: the queue is returned unchanged, nothing is retained for a later
flush, and the dropped records are exactly the (permuted) batch records,
untouched — in particular none of them is marked `Failed`. -/
theorem c2_drop_on_full : ∀ (q : Chan TaskInfo) (batch : List TaskInfo),
    q.closed = false → q.cap ≤ q.buf.length →
    schedulerTick q batch = .ok (q, [], prioritySort batch)
    ∧ (prioritySort batch).Perm batch := by
  intro q batch hc hfull
  refine ⟨?_, prioritySort_perm batch⟩
  unfold schedulerTick flushPendingTasks
  by_cases hb : batch.isEmpty
  · have hbnil : batch = [] := by
      cases batch with
      | nil => rfl
      | cons a t => simp at hb
    subst hbnil
    simp [prioritySort, outerAux]
  · rw [if_neg hb, sendAll_full (prioritySort batch) q hc hfull]

/-- Claim C2, witness: the amended statement evaluated on a concrete
full queue and a one-record batch. -/
theorem c2_witness :
    schedulerTick fullChan100 [c2rec] = .ok (fullChan100, [], prioritySort [c2rec])
    ∧ (prioritySort [c2rec]).Perm [c2rec] :=
  c2_drop_on_full fullChan100 [c2rec] (by decide) (by decide)

/-- Claim C3, counterexample: the first `Stop` succeeds, but a second
`Stop` panics (close of an already-closed channel), and `SubmitTask`
after `Stop` panics on the send to the closed submission queue instead
of returning a `PoolClosed` error — contrary to the claim. -/
theorem c3_counterexample :
    Stop (NewWorkerModule 4) = .ok stoppedWM
    ∧ Stop stoppedWM = .panicked "close of closed channel"
    ∧ SubmitTask stoppedWM { name := "t" } 0 0 0 = .panicked "send on closed channel" := by
  exact ⟨by decide, by decide, by decide⟩

/-- Claim C3 (amended): the first `Stop` on a running pool succeeds and
closes the quit channel and both queues; any further `Stop` panics on
the already-closed quit channel instead of being idempotent, and any
`SubmitTask` once the submission queue is closed panics on the send to a
closed channel instead of returning a `PoolClosed` error. -/
theorem c3_stop_behaviour : ∀ wm : WorkerModule,
    (wm.quitClosed = false → wm.submitQueue.closed = false → wm.taskQueue.closed = false →
      Stop wm = .ok { wm with quitClosed := true, submitQueue := { wm.submitQueue with closed := true }, taskQueue := { wm.taskQueue with closed := true } })
    ∧ (wm.quitClosed = true → Stop wm = .panicked "close of closed channel")
    ∧ (∀ task nanos secs now, wm.submitQueue.closed = true →
        SubmitTask wm task nanos secs now = .panicked "send on closed channel") := by
  intro wm
  refine ⟨?_, ?_, ?_⟩
  · intro h1 h2 h3
    simp [Stop, h1, h2, h3]
  · intro h
    simp [Stop, h]
  · intro task nanos secs now h
    simp [SubmitTask, trySend, h]

/-- Claim C3, witness: the amended statement evaluated on the fresh
module and on the module left by one successful `Stop`. -/
theorem c3_witness :
    Stop (NewWorkerModule 4) = .ok { (NewWorkerModule 4) with quitClosed := true, submitQueue := { (NewWorkerModule 4).submitQueue with closed := true }, taskQueue := { (NewWorkerModule 4).taskQueue with closed := true } }
    ∧ Stop stoppedWM = .panicked "close of closed channel"
    ∧ SubmitTask stoppedWM { name := "t" } 1 2 3 = .panicked "send on closed channel" :=
  ⟨(c3_stop_behaviour (NewWorkerModule 4)).1 rfl rfl rfl,
   (c3_stop_behaviour stoppedWM).2.1 (by decide),
   (c3_stop_behaviour stoppedWM).2.2 { name := "t" } 1 2 3 (by decide)⟩

/-- Claim C4, counterexample: two distinct `SubmitTask` calls whose
clock readings coincide (nanosecond 5, second 0) generate the same
identifier `"task_5_0"`; the second call is not rejected (it returns
success with no error) and silently overwrites the first record: the
registry afterwards holds the second task under that identifier. -/
theorem c4_counterexample :
    SubmitTask (NewWorkerModule 4) c4taskA 5 0 0 = .ok (c4wm1, "task_5_0", none)
    ∧ SubmitTask c4wm1 c4taskB 5 0 1 = .ok (c4wm2, "task_5_0", none)
    ∧ c4taskA ≠ c4taskB
    ∧ (mapLookup c4wm2.tasks "task_5_0").map TaskInfo.task = some c4taskB := by
  exact ⟨by decide, by decide, by decide, by decide⟩

/-- Claim C4 (amended): the generated identifier is a pure function of
the two sampled clock values (`task_<nanos>_<secs>`), so calls that read
equal clocks collide; a submission whose identifier already exists in
the registry is not detected or rejected — it succeeds and the registry
afterwards maps the identifier to the new record, silently replacing the
old one. -/
theorem c4_collision_overwrites : ∀ (wm : WorkerModule) (t : GoTask) (nanos secs now : Int) (old : TaskInfo),
    wm.submitQueue.closed = false →
    wm.submitQueue.buf.length < wm.submitQueue.cap →
    mapLookup wm.tasks (generateTaskID nanos secs) = some old →
    ∃ wm', SubmitTask wm t nanos secs now = .ok (wm', generateTaskID nanos secs, none)
      ∧ mapLookup wm'.tasks (generateTaskID nanos secs)
        = some { id := generateTaskID nanos secs, task := t, status := .pending, createdAt := now, retries := 0 } := by
  intro wm t nanos secs now old hc hroom hold
  refine ⟨{ wm with tasks := mapInsert wm.tasks (generateTaskID nanos secs) { id := generateTaskID nanos secs, task := t, status := .pending, createdAt := now, retries := 0 }, submitQueue := { wm.submitQueue with buf := wm.submitQueue.buf ++ [{ id := generateTaskID nanos secs, task := t, status := .pending, createdAt := now, retries := 0 }] } }, ?_, mapLookup_insert _ _ _⟩
  simp [SubmitTask, trySend, hc, hroom]

/-- Claim C4, witness: the amended statement evaluated on the concrete
collision scenario. -/
theorem c4_witness :
    ∃ wm', SubmitTask c4wm1 c4taskB 5 0 1 = .ok (wm', generateTaskID 5 0, none)
      ∧ mapLookup wm'.tasks (generateTaskID 5 0)
        = some { id := generateTaskID 5 0, task := c4taskB, status := .pending, createdAt := 1, retries := 0 } :=
  c4_collision_overwrites c4wm1 c4taskB 5 0 1 { id := "task_5_0", task := c4taskA, status := .pending } (by decide) (by decide) (by decide)

/-- Claim C5, counterexample: records A and B share priority 2 with A
submitted before B; record C (priority 3) arrives later in the same
flush window.  The exchange sort swaps A past B (A is exchanged with C
in the first inner pass), so the batch is forwarded to the dispatch
queue as [C, B, A]: B is forwarded — and hence dequeued — before A,
violating the first-submitted-first-dispatched tie-break. -/
theorem c5_counterexample :
    flushPendingTasks emptyChan100 [c5recA, c5recB, c5recC]
      = .ok ({ emptyChan100 with buf := [c5recC, c5recB, c5recA] }, [])
    ∧ prio c5recA = prio c5recB
    ∧ c5recA ≠ c5recB := by
  exact ⟨by decide, by decide, by decide⟩

/-- Claim C5 (amended): within one flush window the forwarded order is a
deterministic function of the batch — the exchange sort — and is ordered
by priority descending; but the tie-break among equal priorities is not
submission order: equal-priority records may be forwarded in either
order. -/
theorem c5_flush_order : ∀ (q : Chan TaskInfo) (batch : List TaskInfo),
    q.closed = false → q.buf.length + batch.length ≤ q.cap →
    flushPendingTasks q batch = .ok ({ q with buf := q.buf ++ prioritySort batch }, [])
    ∧ (prioritySort batch).Pairwise (fun x y => prio y ≤ prio x) :=
  fun q batch hc hroom => ⟨flush_fits q batch hc hroom, prioritySort_sorted batch⟩

/-- Claim C5, witness: the amended statement evaluated on the concrete
three-record batch. -/
theorem c5_witness :
    flushPendingTasks emptyChan100 [c5recA, c5recB, c5recC]
      = .ok ({ emptyChan100 with buf := emptyChan100.buf ++ prioritySort [c5recA, c5recB, c5recC] }, [])
    ∧ (prioritySort [c5recA, c5recB, c5recC]).Pairwise (fun x y => prio y ≤ prio x) :=
  c5_flush_order emptyChan100 [c5recA, c5recB, c5recC] (by decide) (by decide)

/-- Claim C6: within one flush window with room in the dispatch queue,
the sequence forwarded to the dispatch queue is exactly the exchange
sort of the batch, which is a permutation of the batch ordered by
priority descending. -/
theorem c6_flush_sorted : ∀ (q : Chan TaskInfo) (batch : List TaskInfo),
    q.closed = false → q.buf.length + batch.length ≤ q.cap →
    flushPendingTasks q batch = .ok ({ q with buf := q.buf ++ prioritySort batch }, [])
    ∧ (prioritySort batch).Perm batch
    ∧ (prioritySort batch).Pairwise (fun x y => prio y ≤ prio x) :=
  fun q batch hc hroom => ⟨flush_fits q batch hc hroom, prioritySort_perm batch, prioritySort_sorted batch⟩

/-- Claim C6, witness: the batch with priorities [1,5,3,2,4] is
forwarded as a descending permutation, concretely in priority order
[5,4,3,2,1] — the single-worker execution start order. -/
theorem c6_witness :
    (flushPendingTasks emptyChan100 c6batch
        = .ok ({ emptyChan100 with buf := emptyChan100.buf ++ prioritySort c6batch }, [])
      ∧ (prioritySort c6batch).Perm c6batch
      ∧ (prioritySort c6batch).Pairwise (fun x y => prio y ≤ prio x))
    ∧ (prioritySort c6batch).map prio = [5, 4, 3, 2, 1] :=
  ⟨c6_flush_sorted emptyChan100 c6batch (by decide) (by decide), by decide⟩

/-- Claim C7: a pending task whose `Execute` always fails and whose
retry budget is `R ≥ 0`, with the submission queue never exhausted on
resubmission, is executed exactly `R + 1` times, then settles in
`Failed` with the last execution error retained on the record and the
retry counter equal to the budget.  Each non-final failure increments
the retry counter and resets the status to `Pending` (this is how the
loop continues: `driveRetries` re-dispatches exactly the records whose
status was reset to `Pending`). -/
theorem c7_retry_bound : ∀ (R : Int) (fuel : Nat) (ti : TaskInfo)
    (execs : Nat → Option String) (sq : Chan TaskInfo),
    sq.closed = false → sq.buf.length < sq.cap →
    (∀ k, (execs k).isSome) →
    ti.status = .pending → ti.retries = 0 → ti.task.retry = R → 0 ≤ R →
    R.toNat + 1 ≤ fuel →
    ∃ ti', driveRetries execs sq fuel ti 0 = .ok (ti', R.toNat + 1)
      ∧ ti'.status = .failed ∧ ti'.error = execs R.toNat ∧ ti'.retries = R := by
  intro R fuel ti execs sq hc hroom hE hp hr0 hR hRnn hf
  obtain ⟨ti', h1, h2, h3, h4, h5, h6⟩ :=
    driveRetries_run R.toNat fuel ti 0 execs sq hc hroom hE hp (by omega) (by omega) hf
  refine ⟨ti', ?_, h2, ?_, ?_⟩
  · simpa using h1
  · simpa using h3
  · rw [h4, hR]

/-- Claim C7, witness: the concrete record with retry budget 2 and an
always-failing execution stream is executed exactly 3 times, ends
Failed, and retains the error of the third (index 2) execution. -/
theorem c7_witness :
    ∃ ti', driveRetries c7execs emptyChan100 10 c7rec 0 = .ok (ti', 3)
      ∧ ti'.status = .failed ∧ ti'.error = some "2" ∧ ti'.retries = 2 := by
  obtain ⟨ti', h1, h2, h3, h4⟩ :=
    c7_retry_bound 2 10 c7rec c7execs emptyChan100 (by decide) (by decide)
      (fun k => rfl) rfl rfl rfl (by decide) (by decide)
  exact ⟨ti', h1, h2, h3, h4⟩

/-- Claim C8: `CancelTask` returns true and moves the record to
`Cancelled` exactly when the record exists and is `Pending`; for a
missing record or any other status it returns false and leaves the
module unchanged; and a worker never invokes `Execute` on a record it
dequeues as `Cancelled`. -/
theorem c8_cancel_iff : ∀ (wm : WorkerModule) (taskID : String) (now : Int),
    (mapLookup wm.tasks taskID = none → CancelTask wm taskID now = (wm, false))
    ∧ (∀ ti, mapLookup wm.tasks taskID = some ti → ti.status ≠ .pending →
        CancelTask wm taskID now = (wm, false))
    ∧ (∀ ti, mapLookup wm.tasks taskID = some ti → ti.status = .pending →
        (CancelTask wm taskID now).2 = true
        ∧ mapLookup (CancelTask wm taskID now).1.tasks taskID
            = some { ti with status := .cancelled, endedAt := now })
    ∧ (∀ ti : TaskInfo, ti.status = .cancelled → workerExecutes ti = false) := by
  intro wm taskID now
  refine ⟨?_, ?_, ?_, ?_⟩
  · intro h
    simp [CancelTask, h]
  · intro ti h hs
    simp [CancelTask, h, hs]
  · intro ti h hs
    constructor
    · simp [CancelTask, h, hs]
    · simp [CancelTask, h, hs, mapLookup_insert]
  · intro ti h
    simp [workerExecutes, h]

/-- Claim C8, witness: cancelling the concrete pending record "y"
returns true and leaves it Cancelled with the end timestamp stamped, and
the worker guard refuses to execute the cancelled record. -/
theorem c8_witness :
    (CancelTask c8wm "y" 7).2 = true
    ∧ mapLookup (CancelTask c8wm "y" 7).1.tasks "y"
        = some { mkRec "y" 1 with status := .cancelled, endedAt := 7 }
    ∧ workerExecutes { mkRec "y" 1 with status := .cancelled, endedAt := 7 } = false := by
  obtain ⟨-, -, h3, h4⟩ := c8_cancel_iff c8wm "y" 7
  obtain ⟨ha, hb⟩ := h3 (mkRec "y" 1) (by decide) rfl
  exact ⟨ha, hb, h4 _ rfl⟩

/-- Claim C9, counterexample: the worker's cancellation check
(part_008:222) runs without the registry mutex, and `executeTask` sets
the status to `Running` unconditionally (part_008:305).  In the
interleaving check → `CancelTask` → `executeTask`, the check sees the
pending record and lets execution proceed, the cancellation then
succeeds (record observed `Cancelled`), and execution start then
overwrites the status with `Running`: the record is observed `Running`
after the terminal `Cancelled`, a transition outside the legal state
machine — contrary to the claim. -/
theorem c9_counterexample :
    workerExecutes (mkRec "x" 0) = true
    ∧ (CancelTask c9wm "x" 5).2 = true
    ∧ c9cancelled.status = .cancelled
    ∧ (execStart c9cancelled 6).status = .running
    ∧ legalStep TaskStatus.cancelled TaskStatus.running = false := by
  exact ⟨by decide, by decide, by decide, by decide, by decide⟩

/-- Claim C9 (amended): each mutex-protected region on its own respects
the lifecycle machine — `CancelTask` either leaves the record unchanged
or performs the legal Pending→Cancelled step, and a worker step on a
record that stays untouched between the cancellation check and
`executeTask` either skips a `Cancelled` record unchanged or takes the
legal Pending→Running step followed by a legal Running→{Pending,
Completed, Failed} step.  The claim fails only because the cancellation
check and the `Running` write are not atomic, as the counterexample
interleaving shows. -/
theorem c9_locked_transitions : ∀ (wm : WorkerModule) (taskID : String) (now : Int)
    (ti : TaskInfo) (execErr : Option String) (sq : Chan TaskInfo) (t1 t2 : Int),
    (∀ a b, mapLookup wm.tasks taskID = some a →
      mapLookup (CancelTask wm taskID now).1.tasks taskID = some b →
      b = a ∨ legalStep a.status b.status = true)
    ∧ (ti.status = .cancelled → workerStep ti execErr sq t1 t2 = .ok (ti, sq))
    ∧ (ti.status = .pending → sq.closed = false →
        ∃ tif q, workerStep ti execErr sq t1 t2 = .ok (tif, q)
          ∧ legalStep ti.status TaskStatus.running = true
          ∧ legalStep TaskStatus.running tif.status = true) := by
  intro wm taskID now ti execErr sq t1 t2
  refine ⟨?_, ?_, ?_⟩
  · intro a b ha hb
    by_cases hs : a.status = .pending
    · right
      have hcancel : mapLookup (CancelTask wm taskID now).1.tasks taskID
          = some { a with status := .cancelled, endedAt := now } := by
        simp [CancelTask, ha, hs, mapLookup_insert]
      rw [hcancel] at hb
      cases hb
      rw [hs]
      rfl
    · left
      have hsame : CancelTask wm taskID now = (wm, false) := by
        simp [CancelTask, ha, hs]
      rw [hsame] at hb
      rw [ha] at hb
      cases hb
      rfl
  · intro h
    simp [workerStep, workerExecutes, h]
  · intro hp hc
    have hwe : workerExecutes ti = true := by simp [workerExecutes, hp]
    obtain ⟨tif, q, hrun, hst⟩ := executeTask_ok ti execErr sq t1 t2 hc
    refine ⟨tif, q, ?_, by rw [hp]; rfl, ?_⟩
    · simp [workerStep, hwe, hrun]
    · rcases hst with h | h | h <;> rw [h] <;> rfl

/-- Claim C9, witness: the amended statement evaluated concretely — the
cancel step on the pending record "x" is the legal Pending→Cancelled
step, a cancelled record is skipped unchanged, and a worker step on a
pending record with a successful execution takes legal steps only. -/
theorem c9_witness :
    (c9cancelled = mkRec "x" 0 ∨ legalStep (mkRec "x" 0).status c9cancelled.status = true)
    ∧ workerStep { mkRec "x" 0 with status := .cancelled } none emptyChan100 0 0
        = .ok ({ mkRec "x" 0 with status := .cancelled }, emptyChan100)
    ∧ (∃ tif q, workerStep (mkRec "w" 0) none emptyChan100 0 0 = .ok (tif, q)
        ∧ legalStep (mkRec "w" 0).status TaskStatus.running = true
        ∧ legalStep TaskStatus.running tif.status = true) := by
  obtain ⟨h1, h2, h3⟩ :=
    c9_locked_transitions c9wm "x" 5 { mkRec "x" 0 with status := .cancelled } none emptyChan100 0 0
  refine ⟨h1 (mkRec "x" 0) c9cancelled (by decide) (by decide), h2 rfl, ?_⟩
  obtain ⟨-, -, h3'⟩ :=
    c9_locked_transitions c9wm "x" 5 (mkRec "w" 0) none emptyChan100 0 0
  exact h3' rfl rfl

/-- Claim C10: a deadline-bound execution context is derived exactly
when the task's timeout is strictly positive: `taskCtx` yields the
ambient context for every zero or negative timeout (negative timeouts
behave like the zero unbounded case), and `executeTask` runs `Execute`
under `taskCtx` of the task's timeout — ambient when the timeout is not
positive, deadline-bound with exactly the declared timeout otherwise. -/
theorem c10_timeout_ctx : ∀ (ti : TaskInfo) (err : Option String) (sq : Chan TaskInfo) (t1 t2 : Int),
    sq.closed = false →
    (∀ t : Int, taskCtx t = .ambient ↔ t ≤ 0)
    ∧ (ti.task.timeout ≤ 0 →
        ∃ tif q, executeTask ti err sq t1 t2 = .ok (tif, q, ExecCtx.ambient))
    ∧ (0 < ti.task.timeout →
        ∃ tif q, executeTask ti err sq t1 t2 = .ok (tif, q, ExecCtx.withTimeout ti.task.timeout)) := by
  intro ti err sq t1 t2 hc
  refine ⟨?_, ?_, ?_⟩
  · intro t
    constructor
    · intro hct
      by_contra hpos
      push_neg at hpos
      simp [taskCtx, hpos] at hct
    · intro hle
      have hng : ¬ t > 0 := by omega
      simp [taskCtx, hng]
  · intro h
    obtain ⟨tif, q, hrun, -⟩ := executeTask_ok ti err sq t1 t2 hc
    rw [show taskCtx ti.task.timeout = ExecCtx.ambient from by simp [taskCtx]; omega] at hrun
    exact ⟨tif, q, hrun⟩
  · intro h
    obtain ⟨tif, q, hrun, -⟩ := executeTask_ok ti err sq t1 t2 hc
    rw [show taskCtx ti.task.timeout = ExecCtx.withTimeout ti.task.timeout from by simp [taskCtx, h]] at hrun
    exact ⟨tif, q, hrun⟩

/-- Claim C10, witness: the concrete record with timeout -3 runs under
the ambient context, and the context equivalence evaluated at -3. -/
theorem c10_witness :
    (taskCtx (-3) = ExecCtx.ambient ↔ (-3 : Int) ≤ 0)
    ∧ (∃ tif q, executeTask c10rec none emptyChan100 0 0 = .ok (tif, q, ExecCtx.ambient)) := by
  obtain ⟨h1, h2, -⟩ := c10_timeout_ctx c10rec none emptyChan100 0 0 (by decide)
  exact ⟨h1 (-3), h2 (by decide)⟩

end WorkerPool
